import Mathlib

/-!
Shallow embedding of the `puzzle-verifier` crate (Robozzle puzzle verifier).

The definitions below are translated from the Rust sources:
  * `src/crates/puzzle-verifier/src/puzzle.rs`   — domain model
  * `src/crates/puzzle-verifier/src/executor.rs` — bounded program executor
  * `src/crates/puzzle-verifier/src/pruning.rs`  — structural pruning predicates
  * `src/crates/puzzle-verifier/src/solver.rs`   — bounded backtracking search

Modelling conventions: `usize` becomes `Nat`, `i32` positions become `Int`
(coordinates stay far from the 32-bit boundary in everything proved here),
`f32` ratios become `Rat`, Rust `Option` becomes Lean `Option`, vectors become
lists, and the executor's LIFO stack is a list whose head is the top of the
stack.  The `u8` truncation performed by `StackFrame::new` is kept as `% 256`.
The 64-bit state hash of `create_state_hash` is modelled by the hashed tuple
itself (a collision-free fingerprint); hash-set iteration order, which the
code never observes except in `available_colors`, is canonicalised.  The two
operations of the executor that can panic in Rust (the `usize` decrement of
`stars_remaining`, reported through `StepResult.fault`) make the interpreter
return an `Option`; `execute` returning `none` models a panic.
-/

/-- Tile colour (`TileColor` in `puzzle.rs`). -/
inductive TileColor where
  | Red
  | Green
  | Blue
deriving DecidableEq, Repr

/-- `TileColor::to_condition_mask`. -/
def TileColor.to_condition_mask : TileColor → Nat
  | .Red => 0b001
  | .Green => 0b010
  | .Blue => 0b100

/-- Robot heading (`Direction` in `puzzle.rs`). -/
inductive Direction where
  | Up
  | Down
  | Left
  | Right
deriving DecidableEq, Repr

/-- `Direction::turn_left`. -/
def Direction.turn_left : Direction → Direction
  | .Up => .Left
  | .Left => .Down
  | .Down => .Right
  | .Right => .Up

/-- `Direction::turn_right`. -/
def Direction.turn_right : Direction → Direction
  | .Up => .Right
  | .Right => .Down
  | .Down => .Left
  | .Left => .Up

/-- `Direction::delta`, an (x, y) step with +y pointing down. -/
def Direction.delta : Direction → Int × Int
  | .Up => (0, -1)
  | .Down => (0, 1)
  | .Left => (-1, 0)
  | .Right => (1, 0)

/-- Instruction kind (`InstructionType` in `puzzle.rs`). -/
inductive InstructionType where
  | Forward
  | Left
  | Right
  | F1
  | F2
  | F3
  | F4
  | F5
  | PaintRed
  | PaintGreen
  | PaintBlue
  | Noop
deriving DecidableEq, Repr

/-- `InstructionType::is_function_call`. -/
def InstructionType.is_function_call : InstructionType → Bool
  | .F1 | .F2 | .F3 | .F4 | .F5 => true
  | _ => false

/-- `InstructionType::is_turn`. -/
def InstructionType.is_turn : InstructionType → Bool
  | .Left | .Right => true
  | _ => false

/-- `InstructionType::is_paint`. -/
def InstructionType.is_paint : InstructionType → Bool
  | .PaintRed | .PaintGreen | .PaintBlue => true
  | _ => false

/-- `InstructionType::function_index`, mapping `F1..F5` to `0..4`. -/
def InstructionType.function_index : InstructionType → Option Nat
  | .F1 => some 0
  | .F2 => some 1
  | .F3 => some 2
  | .F4 => some 3
  | .F5 => some 4
  | _ => none

/-- `InstructionType::paint_color`. -/
def InstructionType.paint_color : InstructionType → Option TileColor
  | .PaintRed => some TileColor.Red
  | .PaintGreen => some TileColor.Green
  | .PaintBlue => some TileColor.Blue
  | _ => none

/-- A single instruction with an optional colour condition (`Instruction`). -/
structure Instruction where
  instruction_type : InstructionType
  condition : Option TileColor
deriving DecidableEq, Repr

/-- `Instruction::should_execute`: run iff the condition is absent or equals
the current tile colour. -/
def Instruction.should_execute (i : Instruction) (tile_color : Option TileColor) : Bool :=
  match i.condition with
  | none => true
  | some cond => tile_color == some cond

/-- `Instruction::is_noop`. -/
def Instruction.is_noop (i : Instruction) : Bool :=
  i.instruction_type == InstructionType.Noop

/-- A grid tile (`Tile`). -/
structure Tile where
  color : Option TileColor
  has_star : Bool
deriving DecidableEq, Repr

/-- Signed grid position (`Position`). -/
structure Position where
  x : Int
  y : Int
deriving DecidableEq, Repr

/-- Robot starting pose (`RobotStart`). -/
structure RobotStart where
  position : Position
  direction : Direction
deriving DecidableEq, Repr

/-- Per-function slot budgets (`FunctionLengths`). -/
structure FunctionLengths where
  f1 : Nat
  f2 : Nat
  f3 : Nat
  f4 : Nat
  f5 : Nat
deriving DecidableEq, Repr

/-- `FunctionLengths::get`. -/
def FunctionLengths.get (l : FunctionLengths) : Nat → Nat
  | 0 => l.f1
  | 1 => l.f2
  | 2 => l.f3
  | 3 => l.f4
  | 4 => l.f5
  | _ => 0

/-- `FunctionLengths::total_slots`. -/
def FunctionLengths.total_slots (l : FunctionLengths) : Nat :=
  l.f1 + l.f2 + l.f3 + l.f4 + l.f5

/-- A program of five function bodies; `none` is an empty slot (`Program`). -/
structure Program where
  f1 : List (Option Instruction)
  f2 : List (Option Instruction)
  f3 : List (Option Instruction)
  f4 : List (Option Instruction)
  f5 : List (Option Instruction)
deriving DecidableEq, Repr

/-- `Program::new` (the `Default` instance: five empty bodies). -/
def Program.new : Program :=
  { f1 := [], f2 := [], f3 := [], f4 := [], f5 := [] }

/-- `Program::with_lengths`: bodies of the configured lengths, all slots empty. -/
def Program.with_lengths (lengths : FunctionLengths) : Program :=
  { f1 := List.replicate lengths.f1 none
  , f2 := List.replicate lengths.f2 none
  , f3 := List.replicate lengths.f3 none
  , f4 := List.replicate lengths.f4 none
  , f5 := List.replicate lengths.f5 none }

/-- `Program::get_function`: indices `0..4` select `f1..f5`, anything else
yields the empty slice. -/
def Program.get_function (p : Program) : Nat → List (Option Instruction)
  | 0 => p.f1
  | 1 => p.f2
  | 2 => p.f3
  | 3 => p.f4
  | 4 => p.f5
  | _ => []

/-- The guarded slot write done by `Program::set` on the vector returned by
`get_function_mut` (`if inst_index < func.len() { func[inst_index] = .. }`). -/
def Program.setSlot (func : List (Option Instruction)) (inst_index : Nat)
    (instruction : Option Instruction) : List (Option Instruction) :=
  if inst_index < func.length then func.set inst_index instruction else func

/-- `Program::set`, with `get_function_mut`'s routing inlined: indices `0..3`
select `f1..f4` and every other index (including everything `≥ 5`) selects
`f5`. -/
def Program.set (p : Program) (func_index inst_index : Nat)
    (instruction : Option Instruction) : Program :=
  match func_index with
  | 0 => { p with f1 := Program.setSlot p.f1 inst_index instruction }
  | 1 => { p with f2 := Program.setSlot p.f2 inst_index instruction }
  | 2 => { p with f3 := Program.setSlot p.f3 inst_index instruction }
  | 3 => { p with f4 := Program.setSlot p.f4 inst_index instruction }
  | _ => { p with f5 := Program.setSlot p.f5 inst_index instruction }

/-- `Program::count_instructions`: number of non-empty slots. -/
def Program.count_instructions (p : Program) : Nat :=
  p.f1.countP Option.isSome + p.f2.countP Option.isSome + p.f3.countP Option.isSome
    + p.f4.countP Option.isSome + p.f5.countP Option.isSome

/-- `Program::get`: the instruction in a slot, `none` when the slot is out of
range or empty. -/
def Program.get (p : Program) (func_index inst_index : Nat) : Option Instruction :=
  (p.get_function func_index).getD inst_index none

/-- First `none` slot of one function body. -/
def Program.findNoneIdx (l : List (Option Instruction)) : Option Nat :=
  l.findIdx? Option.isNone

/-- `Program::find_empty_slot`: lexicographically first empty slot. -/
def Program.find_empty_slot (p : Program) : Option (Nat × Nat) :=
  match Program.findNoneIdx p.f1 with
  | some i => some (0, i)
  | none =>
    match Program.findNoneIdx p.f2 with
    | some i => some (1, i)
    | none =>
      match Program.findNoneIdx p.f3 with
      | some i => some (2, i)
      | none =>
        match Program.findNoneIdx p.f4 with
        | some i => some (3, i)
        | none =>
          match Program.findNoneIdx p.f5 with
          | some i => some (4, i)
          | none => none

/-- `Program::has_empty_slots`. -/
def Program.has_empty_slots (p : Program) : Bool :=
  p.find_empty_slot.isSome

/-- `Program::with_instruction`: functional update of one slot. -/
def Program.with_instruction (p : Program) (func_index inst_index : Nat)
    (instruction : Option Instruction) : Program :=
  p.set func_index inst_index instruction

/-- The complete puzzle configuration (`PuzzleConfig`). -/
structure PuzzleConfig where
  id : String
  title : String
  grid : List (List (Option Tile))
  robot_start : RobotStart
  function_lengths : FunctionLengths
  allowed_instructions : List InstructionType
  solution : Option Program
deriving DecidableEq, Repr

/-- Stars in one grid row (`has_star` tiles). -/
def rowStars (row : List (Option Tile)) : Nat :=
  row.countP (fun t =>
    match t with
    | some tile => tile.has_star
    | none => false)

/-- Stars on a whole grid; `PuzzleConfig::count_stars` counts exactly this. -/
def gridStars (tiles : List (List (Option Tile))) : Nat :=
  (tiles.map rowStars).sum

/-- `PuzzleConfig::get_tile`: bounds-checked tile lookup. -/
def PuzzleConfig.get_tile (p : PuzzleConfig) (x y : Int) : Option Tile :=
  if y < 0 || x < 0 then none
  else
    match p.grid.get? y.toNat with
    | none => none
    | some row =>
      match row.get? x.toNat with
      | none => none
      | some slot => slot

/-- `PuzzleConfig::count_stars`. -/
def PuzzleConfig.count_stars (p : PuzzleConfig) : Nat :=
  gridStars p.grid

/-- `PuzzleConfig::available_colors`: the set of colours appearing on any
tile.  The Rust code materialises a `HashSet` into a `Vec` in unspecified
order; the model canonicalises the order to Red, Green, Blue. -/
def PuzzleConfig.available_colors (p : PuzzleConfig) : List TileColor :=
  [TileColor.Red, TileColor.Green, TileColor.Blue].filter (fun c =>
    p.grid.any (fun row => row.any (fun t =>
      match t with
      | some tile => tile.color == some c
      | none => false)))

/-- `PuzzleConfig::allows_paint`. -/
def PuzzleConfig.allows_paint (p : PuzzleConfig) (color : TileColor) : Bool :=
  let paint_type :=
    match color with
    | TileColor.Red => InstructionType.PaintRed
    | TileColor.Green => InstructionType.PaintGreen
    | TileColor.Blue => InstructionType.PaintBlue
  p.allowed_instructions.contains paint_type

/-- Non-triviality thresholds (`MinConstraints`); the `f32` ratio threshold is
modelled as a rational. -/
structure MinConstraints where
  instructions : Nat
  steps : Nat
  recursion_depth : Nat
  conditionals : Nat
  step_ratio : Rat
deriving DecidableEq, Repr

/-- `MinConstraints::default`. -/
def MinConstraints.default : MinConstraints :=
  { instructions := 4, steps := 16, recursion_depth := 3, conditionals := 2, step_ratio := 3 }

/-- Terminal status of one execution (`ExecutionStatus` in `executor.rs`). -/
inductive ExecutionStatus where
  | Solved
  | Fell
  | Timeout
  | Cycle
  | StackOverflow
deriving DecidableEq, Repr

/-- Counters collected during execution (`ExecutionMetrics`). -/
structure ExecutionMetrics where
  steps : Nat
  instructions : Nat
  max_stack_depth : Nat
  conditionals_executed : Nat
  functions_called : Nat
  tiles_visited : Nat
  stars_collected : Nat
  total_stars : Nat
  paints_executed : Nat
deriving DecidableEq, Repr

/-- `ExecutionMetrics::step_ratio` (`f32` division modelled on `Rat`). -/
def ExecutionMetrics.step_ratio (m : ExecutionMetrics) : Rat :=
  if m.instructions = 0 then 0 else (m.steps : Rat) / (m.instructions : Rat)

/-- Result of running a program (`ExecutionResult`). -/
structure ExecutionResult where
  status : ExecutionStatus
  metrics : ExecutionMetrics
  solved : Bool
deriving DecidableEq, Repr

/-- A frame of the interpreter's call stack (`StackFrame`), whose fields are
`u8` in Rust. -/
structure StackFrame where
  func_index : Nat
  inst_index : Nat
deriving DecidableEq, Repr

/-- `StackFrame::new`, keeping the `as u8` truncation. -/
def StackFrame.new (func_index inst_index : Nat) : StackFrame :=
  { func_index := func_index % 256, inst_index := inst_index % 256 }

/-- Push the slots of one function in reverse order, so that slot 0 ends up on
top of the stack (the stack's top is the list head). -/
def pushFunction (func_index len : Nat) (stack : List StackFrame) : List StackFrame :=
  ((List.range len).map (fun i => StackFrame.new func_index i)) ++ stack

/-- Mutable grid state during execution (`GridState`). -/
structure GridState where
  tiles : List (List (Option Tile))
  position : Position
  direction : Direction
  stars_remaining : Nat
deriving DecidableEq, Repr

/-- `GridState::from_puzzle`: clone the grid, place the robot, count stars. -/
def GridState.from_puzzle (puzzle : PuzzleConfig) : GridState :=
  { tiles := puzzle.grid
  , position := puzzle.robot_start.position
  , direction := puzzle.robot_start.direction
  , stars_remaining := puzzle.count_stars }

/-- `GridState::get_tile`: bounds-checked lookup, `none` off the grid. -/
def GridState.get_tile (gs : GridState) (x y : Int) : Option Tile :=
  if y < 0 || x < 0 then none
  else
    match gs.tiles.get? y.toNat with
    | none => none
    | some row =>
      match row.get? x.toNat with
      | none => none
      | some slot => slot

/-- Functional form of a write through `GridState::get_tile_mut`: replace the
tile at (x, y) when one is present, otherwise leave the grid unchanged. -/
def GridState.setTile (gs : GridState) (x y : Int) (t : Tile) : GridState :=
  if y < 0 || x < 0 then gs
  else
    match gs.tiles.get? y.toNat with
    | none => gs
    | some row => { gs with tiles := gs.tiles.set y.toNat (row.set x.toNat (some t)) }

/-- `GridState::current_tile`. -/
def GridState.current_tile (gs : GridState) : Option Tile :=
  gs.get_tile gs.position.x gs.position.y

/-- `GridState::current_color`. -/
def GridState.current_color (gs : GridState) : Option TileColor :=
  match gs.current_tile with
  | some t => t.color
  | none => none

/-- The tuple hashed by `create_state_hash`.  The Rust code feeds these
components to a 64-bit hasher; the model keeps the tuple itself, a
collision-free fingerprint of the same data. -/
structure StateHash where
  x : Int
  y : Int
  direction : Direction
  stars_remaining : Nat
  top_frames : List StackFrame
  stack_len : Nat
deriving DecidableEq, Repr

/-- `create_state_hash`: robot pose, stars remaining, the top (at most) 4
stack frames in bottom-to-top order, and the stack length. -/
def create_state_hash (state : GridState) (stack : List StackFrame)
    (stars_remaining : Nat) : StateHash :=
  { x := state.position.x
  , y := state.position.y
  , direction := state.direction
  , stars_remaining := stars_remaining
  , top_frames := (stack.take 4).reverse
  , stack_len := stack.length }

/-- The full mutable state of one `execute` call: grid state, metrics, the
visited-tiles set, the instruction stack (head = top) and the set of state
hashes seen by the cycle detector. -/
structure ExecState where
  state : GridState
  metrics : ExecutionMetrics
  visited : List (Int × Int)
  stack : List StackFrame
  seen : List StateHash
deriving DecidableEq, Repr

/-- The F1 auto-loop at the bottom of the interpreter loop (`executor.rs`
lines 323-331): if the stack has just become empty, re-push F1's slots in
reverse order. -/
def autoLoop (program : Program) (s : ExecState) : ExecState :=
  if s.stack.isEmpty then
    if 0 < program.f1.length then
      { s with stack := pushFunction 0 program.f1.length s.stack }
    else s
  else s

/-- Outcome of one iteration of the interpreter loop: halt with a result,
fault (a Rust panic), or continue with a new state. -/
inductive StepResult where
  | halt : ExecutionResult → StepResult
  | fault : StepResult
  | next : ExecState → StepResult
deriving DecidableEq, Repr

/-- The `F1..F5` arm of the dispatch `match`: `target_func` is the value of
`instruction_type.function_index().unwrap()` for the matched constructor. -/
def callFunction (program : Program) (target_func : Nat) (s : ExecState) : StepResult :=
  let func_len := (program.get_function target_func).length
  if 0 < func_len then
    .next (autoLoop program
      { s with metrics := { s.metrics with functions_called := s.metrics.functions_called + 1 }
             , stack := pushFunction target_func func_len s.stack })
  else
    .next (autoLoop program s)

/-- The `PaintRed/PaintGreen/PaintBlue` arms of the dispatch `match`: colour
the current tile when one is present. -/
def paintTile (program : Program) (color : TileColor) (s : ExecState) : StepResult :=
  match s.state.get_tile s.state.position.x s.state.position.y with
  | some tile =>
    .next (autoLoop program
      { s with state := s.state.setTile s.state.position.x s.state.position.y
                          { tile with color := some color }
             , metrics := { s.metrics with paints_executed := s.metrics.paints_executed + 1 } })
  | none => .next (autoLoop program s)

/-- The dispatch `match instruction.instruction_type` of the interpreter loop
(`executor.rs` lines 230-321), taking the state after `metrics.steps += 1`.
The `stars_remaining -= 1` underflow (a Rust `usize` panic) is `fault`.  Every
continuing arm ends in the F1 `autoLoop`. -/
def dispatchInstruction (program : Program) (instruction : Instruction)
    (s : ExecState) : StepResult :=
  match instruction.instruction_type with
  | .Forward =>
    let d := s.state.direction.delta
    let new_x := s.state.position.x + d.1
    let new_y := s.state.position.y + d.2
    match s.state.get_tile new_x new_y with
    | none => .halt { status := .Fell, metrics := s.metrics, solved := false }
    | some tile =>
      let moved := { s.state with position := { x := new_x, y := new_y } }
      let visited1 := if (new_x, new_y) ∈ s.visited then s.visited
                      else (new_x, new_y) :: s.visited
      let m3 := if (new_x, new_y) ∈ s.visited then s.metrics
                else { s.metrics with tiles_visited := s.metrics.tiles_visited + 1 }
      if tile.has_star then
        let collected := moved.setTile new_x new_y { tile with has_star := false }
        match collected.stars_remaining with
        | 0 => .fault
        | r + 1 =>
          let m4 := { m3 with stars_collected := m3.stars_collected + 1 }
          if r = 0 then .halt { status := .Solved, metrics := m4, solved := true }
          else .next (autoLoop program
            { s with state := { collected with stars_remaining := r }
                   , metrics := m4, visited := visited1 })
      else
        .next (autoLoop program { s with state := moved, metrics := m3, visited := visited1 })
  | .Left =>
    .next (autoLoop program
      { s with state := { s.state with direction := s.state.direction.turn_left } })
  | .Right =>
    .next (autoLoop program
      { s with state := { s.state with direction := s.state.direction.turn_right } })
  | .F1 => callFunction program 0 s
  | .F2 => callFunction program 1 s
  | .F3 => callFunction program 2 s
  | .F4 => callFunction program 3 s
  | .F5 => callFunction program 4 s
  | .PaintRed => paintTile program TileColor.Red s
  | .PaintGreen => paintTile program TileColor.Green s
  | .PaintBlue => paintTile program TileColor.Blue s
  | .Noop => .next (autoLoop program s)

/-- One iteration of the `while !stack.is_empty()` loop of `execute`
(`executor.rs` lines 170-332), plus the loop-exit itself: an empty stack
halts with `Timeout` (the fall-through at lines 334-339).  Order of checks is
the source's: step budget, stack-depth cap, peak-depth update, pop, empty
slot skip, colour condition, conditionals counter, sampled cycle check, step
charge, dispatch. -/
def execStep (program : Program) (max_steps : Nat) (s : ExecState) : StepResult :=
  match s.stack with
  | [] => .halt { status := .Timeout, metrics := s.metrics, solved := false }
  | frame :: rest =>
    if max_steps ≤ s.metrics.steps then
      .halt { status := .Timeout, metrics := s.metrics, solved := false }
    else if 256 < s.stack.length then
      .halt { status := .StackOverflow, metrics := s.metrics, solved := false }
    else
      let m0 := { s.metrics with
                  max_stack_depth := Nat.max s.metrics.max_stack_depth s.stack.length }
      match program.get frame.func_index frame.inst_index with
      | none => .next { s with metrics := m0, stack := rest }
      | some instruction =>
        if instruction.should_execute s.state.current_color then
          let m1 := if instruction.condition.isSome then
                      { m0 with conditionals_executed := m0.conditionals_executed + 1 }
                    else m0
          if m1.steps % 16 = 0 then
            let state_hash := create_state_hash s.state rest s.state.stars_remaining
            if state_hash ∈ s.seen then
              .halt { status := .Cycle, metrics := m1, solved := false }
            else
              dispatchInstruction program instruction
                { s with metrics := { m1 with steps := m1.steps + 1 }
                       , stack := rest, seen := state_hash :: s.seen }
          else
            dispatchInstruction program instruction
              { s with metrics := { m1 with steps := m1.steps + 1 }, stack := rest }
        else
          .next { s with metrics := m0, stack := rest }

/-- The `while` loop of `execute`, iterating `execStep` until it halts.  The
result is `none` exactly when an iteration faults (a Rust panic).  Termination:
a skipped frame shrinks the stack without touching `steps`, and a charged step
increases `steps`, which the budget check bounds by `max_steps`. -/
def execLoop (program : Program) (max_steps : Nat) (s : ExecState) :
    Option ExecutionResult :=
  match h : execStep program max_steps s with
  | .halt r => some r
  | .fault => none
  | .next s2 => execLoop program max_steps s2
termination_by (max_steps - s.metrics.steps, s.stack.length)
decreasing_by
  have hauto : ∀ v : ExecState, (autoLoop program v).metrics = v.metrics := by
    intro v
    unfold autoLoop
    split
    · split
      · rfl
      · rfl
    · rfl
  have hdisp : ∀ (ins : Instruction) (t u : ExecState),
      dispatchInstruction program ins t = StepResult.next u →
      u.metrics.steps = t.metrics.steps := by
    intro ins t u hh
    unfold dispatchInstruction callFunction paintTile at hh
    repeat' (first | split at hh | simp only [] at hh)
    all_goals cases hh
    all_goals rw [hauto]
  have key : (s2.metrics.steps = s.metrics.steps ∧ s2.stack.length < s.stack.length) ∨
      (s.metrics.steps < max_steps ∧ s2.metrics.steps = s.metrics.steps + 1) := by
    unfold execStep at h
    split at h
    · exact absurd h (by simp)
    next frame rest heq =>
      split at h
      · exact absurd h (by simp)
      next hsteps =>
        split at h
        · exact absurd h (by simp)
        next hdepth =>
          repeat' (first | split at h | simp only [] at h)
          all_goals
            first
            | (cases h
               left
               refine ⟨rfl, ?_⟩
               rw [heq]
               simp)
            | (cases h)
            | (right
               refine ⟨by omega, ?_⟩
               rw [hdisp _ _ _ h])
  rcases key with ⟨h1, h2⟩ | ⟨h1, h2⟩
  · rw [h1]
    exact Prod.Lex.right _ h2
  · exact Prod.Lex.left _ _ (by omega)

/-- Fuel-indexed twin of `execLoop`, used to evaluate concrete executions by
kernel reduction.  `none` means the fuel ran out; `some o` means the loop
finished with `execLoop`'s answer `o`. -/
def execLoopFuel : Nat → Program → Nat → ExecState → Option (Option ExecutionResult)
  | 0, _, _, _ => none
  | fuel + 1, program, max_steps, s =>
    match execStep program max_steps s with
    | .halt r => some (some r)
    | .fault => some none
    | .next s2 => execLoopFuel fuel program max_steps s2

/-- The state `execute` starts from (`executor.rs` lines 141-168): grid state
from the puzzle, metrics seeded with the static instruction count and total
stars, the start tile marked visited, F1 pushed in reverse order when
non-empty, and no state hashes seen. -/
def initState (puzzle : PuzzleConfig) (program : Program) : ExecState :=
  let state := GridState.from_puzzle puzzle
  { state := state
  , metrics :=
      { steps := 0
      , instructions := program.count_instructions
      , max_stack_depth := 0
      , conditionals_executed := 0
      , functions_called := 0
      , tiles_visited := 1
      , stars_collected := 0
      , total_stars := state.stars_remaining
      , paints_executed := 0 }
  , visited := [(state.position.x, state.position.y)]
  , stack := if 0 < program.f1.length then pushFunction 0 program.f1.length [] else []
  , seen := [] }

/-- `execute(puzzle, program, max_steps)`.  A `some` result is the
`ExecutionResult` the Rust function returns; `none` models a panic. -/
def execute (puzzle : PuzzleConfig) (program : Program) (max_steps : Nat) :
    Option ExecutionResult :=
  execLoop program max_steps (initState puzzle program)

/-- `verify_solution`: run with `max_steps = 500` and report `solved`. -/
def verify_solution (puzzle : PuzzleConfig) (program : Program) : Option Bool :=
  (execute puzzle program 500).map (fun r => r.solved)

/-- `is_banned_pair` (`pruning.rs` lines 11-79): instruction pairs that can
never be useful.  The `puzzle` argument is unused by the source as well. -/
def is_banned_pair (a b : Instruction) (puzzle : PuzzleConfig) : Bool :=
  if a.instruction_type == InstructionType.Noop
      || b.instruction_type == InstructionType.Noop then
    false
  else if a.condition == b.condition && a.instruction_type.is_turn
      && b.instruction_type.is_turn
      && ((a.instruction_type == InstructionType.Left
            && b.instruction_type == InstructionType.Right)
          || (a.instruction_type == InstructionType.Right
            && b.instruction_type == InstructionType.Left)) then
    true
  else if a.condition == b.condition && a.instruction_type.is_paint
      && b.instruction_type.is_paint then
    true
  else if a.condition.isNone && a.instruction_type.is_paint
      && (match a.instruction_type.paint_color with
          | some paint_color =>
            b.condition == some paint_color && b.instruction_type.is_paint
          | none => false) then
    true
  else if a.instruction_type.is_turn && b.instruction_type.is_turn
      && a.condition == b.condition
      && a.instruction_type == InstructionType.Right
      && b.instruction_type == InstructionType.Left then
    true
  else if a.instruction_type.is_paint
      && (match a.instruction_type.paint_color with
          | some paint_color =>
            b.condition == some paint_color && b.instruction_type == a.instruction_type
          | none => false) then
    true
  else
    false

/-- `is_banned_trio` (`pruning.rs` lines 82-123). -/
def is_banned_trio (a b c : Instruction) (puzzle : PuzzleConfig) : Bool :=
  if is_banned_pair a b puzzle || is_banned_pair b c puzzle then
    true
  else if a.condition == b.condition && b.condition == c.condition
      && a.instruction_type.is_turn && b.instruction_type.is_turn
      && c.instruction_type.is_turn
      && a.instruction_type == b.instruction_type
      && b.instruction_type == c.instruction_type then
    true
  else if a.instruction_type.is_paint && a.condition.isNone
      && (match a.instruction_type.paint_color with
          | some paint_color =>
            (b.instruction_type.is_turn || b.instruction_type == InstructionType.Noop)
            && (match c.condition with
                | some cond => cond != paint_color
                | none => false)
          | none => false) then
    true
  else
    false

/-- Does a function body contain at least one non-empty slot?  This is the
`func.iter().any(|i| i.is_some())` test of `should_reject_program`. -/
def functionHasInstructions (program : Program) (func_idx : Nat) : Bool :=
  (program.get_function func_idx).any Option.isSome

/-- The banned pair/trio scan of `should_reject_program` (`pruning.rs` lines
128-152): gaps collapsed, consecutive pairs and trios checked. -/
def bannedSequenceCheck (program : Program) (puzzle : PuzzleConfig) : Bool :=
  (List.range 5).any (fun func_idx =>
    let instructions := (program.get_function func_idx).filterMap id
    (instructions.zip instructions.tail).any
      (fun pr => is_banned_pair pr.1 pr.2 puzzle)
    || (instructions.zip (instructions.tail.zip instructions.tail.tail)).any
      (fun tr => is_banned_trio tr.1 tr.2.1 tr.2.2 puzzle))

/-- The `called_functions` marking of `should_reject_program` (`pruning.rs`
lines 156-166): index 0 is always marked, and an index is marked when any
slot of any function calls it.  Note this is *not* transitive reachability
from F1: calls inside functions that are themselves never called still mark
their targets. -/
def called_functions (program : Program) (target : Nat) : Bool :=
  target == 0
  || (List.range 5).any (fun func_idx =>
      (program.get_function func_idx).any (fun slot =>
        match slot with
        | some inst => inst.instruction_type.function_index == some target
        | none => false))

/-- The unreachable-function check of `should_reject_program` (`pruning.rs`
lines 169-175). -/
def unreachableFunctionCheck (program : Program) : Bool :=
  (List.range 5).any (fun func_idx =>
    functionHasInstructions program func_idx && !(called_functions program func_idx))

/-- The invalid-conditional check of `should_reject_program` (`pruning.rs`
lines 179-189): a condition colour absent from the puzzle. -/
def invalidConditionCheck (program : Program) (puzzle : PuzzleConfig) : Bool :=
  (List.range 5).any (fun func_idx =>
    (program.get_function func_idx).any (fun slot =>
      match slot with
      | some inst =>
        match inst.condition with
        | some cond => !(puzzle.available_colors.contains cond)
        | none => false
      | none => false))

/-- The empty-call check of `should_reject_program` (`pruning.rs` lines
192-203): a call to a function with no non-empty slot. -/
def emptyCallCheck (program : Program) : Bool :=
  (List.range 5).any (fun func_idx =>
    (program.get_function func_idx).any (fun slot =>
      match slot with
      | some inst =>
        match inst.instruction_type.function_index with
        | some target => !(functionHasInstructions program target)
        | none => false
      | none => false))

/-- `should_reject_program` (`pruning.rs` lines 126-210): the early-return
cascade is the disjunction of its four checks. -/
def should_reject_program (program : Program) (puzzle : PuzzleConfig) : Bool :=
  bannedSequenceCheck program puzzle
  || unreachableFunctionCheck program
  || invalidConditionCheck program puzzle
  || emptyCallCheck program

/-- `get_valid_instructions_for_slot` (`pruning.rs` lines 213-254). -/
def get_valid_instructions_for_slot (program : Program) (func_index inst_index : Nat)
    (puzzle : PuzzleConfig) : List Instruction :=
  let available_colors := puzzle.available_colors
  let prev_inst := if 0 < inst_index then program.get func_index (inst_index - 1) else none
  let bannedAfterPrev := fun (i : Instruction) =>
    match prev_inst with
    | some prev => is_banned_pair prev i puzzle
    | none => false
  puzzle.allowed_instructions.flatMap (fun inst_type =>
    let unconditional : Instruction := { instruction_type := inst_type, condition := none }
    (if bannedAfterPrev unconditional then [] else [unconditional])
    ++ available_colors.filterMap (fun color =>
        match inst_type.paint_color with
        | some paint_color =>
          if paint_color == color then none
          else
            let conditional : Instruction := { instruction_type := inst_type, condition := some color }
            if bannedAfterPrev conditional then none else some conditional
        | none =>
          let conditional : Instruction := { instruction_type := inst_type, condition := some color }
          if bannedAfterPrev conditional then none else some conditional))

/-- Solver configuration (`SolverConfig` in `solver.rs`); the wall-clock
`timeout` duration itself is abstracted by the clock oracle passed to
`find_trivial_solution`, the field is kept for shape (in milliseconds). -/
structure SolverConfig where
  timeout : Nat
  max_steps : Nat
  max_instructions : Nat
  min_constraints : MinConstraints
deriving DecidableEq, Repr

/-- Search outcome report (`SolverResult`). -/
structure SolverResult where
  valid : Bool
  search_exhausted : Bool
  programs_tested : Nat
  time_elapsed_ms : Nat
  trivial_solution : Option Program
  trivial_metrics : Option ExecutionMetrics
  reason : Option String
deriving DecidableEq, Repr

/-- `is_below_minimums` (`solver.rs` lines 60-66): any threshold failure
flags triviality. -/
def is_below_minimums (metrics : ExecutionMetrics) (min : MinConstraints) : Bool :=
  decide (metrics.instructions < min.instructions)
  || decide (metrics.steps < min.steps)
  || decide (metrics.max_stack_depth < min.recursion_depth)
  || decide (metrics.conditionals_executed < min.conditionals)
  || decide (metrics.step_ratio < min.step_ratio)

/-- A node of the backtracking search (`SearchFrame`). -/
structure SearchFrame where
  program : Program
  next_slot : Option (Nat × Nat)
deriving DecidableEq, Repr

/-- `SearchFrame::with_program`. -/
def SearchFrame.with_program (program : Program) : SearchFrame :=
  { program := program, next_slot := program.find_empty_slot }

/-- `SearchFrame::new`: the empty program sized to the puzzle's budgets. -/
def SearchFrame.fromPuzzle (puzzle : PuzzleConfig) : SearchFrame :=
  SearchFrame.with_program (Program.with_lengths puzzle.function_lengths)

/-- The next empty slot strictly after `(func_idx, inst_idx)` in lexicographic
order (`solver.rs` lines 169-187). -/
def findSlotAfter (program : Program) (func_idx inst_idx : Nat) : Option (Nat × Nat) :=
  ((List.range 5).filterMap (fun fi =>
    if fi < func_idx then none
    else
      let start_i := if fi = func_idx then inst_idx + 1 else 0
      (((program.get_function fi).drop start_i).findIdx? Option.isNone).map
        (fun j => (fi, start_i + j)))).head?

/-- `format_trivial_reason` (`solver.rs` lines 223-260).  Numeric rendering
of the `f32` ratio uses the rational's string form instead of Rust's `{:.1}`
formatting; nothing proved below inspects this string. -/
def format_trivial_reason (metrics : ExecutionMetrics) (min : MinConstraints) : String :=
  let reasons : List String :=
    (if metrics.instructions < min.instructions then
      [s!"instructions {metrics.instructions} < {min.instructions}"] else [])
    ++ (if metrics.steps < min.steps then
      [s!"steps {metrics.steps} < {min.steps}"] else [])
    ++ (if metrics.max_stack_depth < min.recursion_depth then
      [s!"recursion_depth {metrics.max_stack_depth} < {min.recursion_depth}"] else [])
    ++ (if metrics.conditionals_executed < min.conditionals then
      [s!"conditionals {metrics.conditionals_executed} < {min.conditionals}"] else [])
    ++ (if metrics.step_ratio < min.step_ratio then
      [s!"step_ratio {metrics.step_ratio} < {min.step_ratio}"] else [])
  if reasons.isEmpty then "unknown" else String.intercalate ", " reasons

/-- The worklist loop of `find_trivial_solution` (`solver.rs` lines 103-219).
`clock k` models the `Instant::now() > deadline` test of the k-th popped
frame, and `k` doubles as the abstract elapsed time that is reported.  The
loop is indexed by `fuel` only to make the recursion structural: `none` means
the fuel ran out (or, propagated from `execute`, that a run panicked); every
`some` is a result the Rust loop returns. -/
def findTrivialLoop (puzzle : PuzzleConfig) (config : SolverConfig) (clock : Nat → Bool) :
    Nat → Nat → Nat → List SearchFrame → Option SolverResult
  | 0, _, _, _ => none
  | fuel + 1, k, programs_tested, queue =>
    match queue with
    | [] =>
      some { valid := true, search_exhausted := true, programs_tested := programs_tested
           , time_elapsed_ms := k, trivial_solution := none, trivial_metrics := none
           , reason := none }
    | frame :: rest =>
      if clock k then
        some { valid := true, search_exhausted := false, programs_tested := programs_tested
             , time_elapsed_ms := k, trivial_solution := none, trivial_metrics := none
             , reason := none }
      else
        match frame.next_slot with
        | none =>
          if should_reject_program frame.program puzzle then
            findTrivialLoop puzzle config clock fuel (k + 1) (programs_tested + 1) rest
          else
            match execute puzzle frame.program config.max_steps with
            | none => none
            | some result =>
              if result.solved && is_below_minimums result.metrics config.min_constraints then
                some { valid := false, search_exhausted := false
                     , programs_tested := programs_tested + 1, time_elapsed_ms := k
                     , trivial_solution := some frame.program
                     , trivial_metrics := some result.metrics
                     , reason := some (format_trivial_reason result.metrics config.min_constraints) }
              else
                findTrivialLoop puzzle config clock fuel (k + 1) (programs_tested + 1) rest
        | some slot =>
          if config.max_instructions ≤ frame.program.count_instructions then
            findTrivialLoop puzzle config clock fuel (k + 1) programs_tested rest
          else
            let func_idx := slot.1
            let inst_idx := slot.2
            let valid_instructions :=
              get_valid_instructions_for_slot frame.program func_idx inst_idx puzzle
            let next_next_slot := findSlotAfter frame.program func_idx inst_idx
            let queue1 :=
              match next_next_slot with
              | some later => ({ program := frame.program, next_slot := some later } : SearchFrame) :: rest
              | none => rest
            let children := valid_instructions.filterMap (fun instruction =>
              let new_program :=
                frame.program.with_instruction func_idx inst_idx (some instruction)
              if should_reject_program new_program puzzle then none
              else some (SearchFrame.with_program new_program))
            findTrivialLoop puzzle config clock fuel (k + 1) programs_tested
              (children.reverse ++ queue1)

/-- `find_trivial_solution(puzzle, config)`: run the worklist from the empty
program sized to the puzzle.  `clock` is the wall-clock oracle and `fuel`
bounds the modelled iteration count. -/
def find_trivial_solution (puzzle : PuzzleConfig) (config : SolverConfig)
    (clock : Nat → Bool) (fuel : Nat) : Option SolverResult :=
  findTrivialLoop puzzle config clock fuel 0 0 [SearchFrame.fromPuzzle puzzle]

/-- Function `i` of a program contains a call to function `j` in some
non-empty slot.  This is the edge relation of the claim-side call graph. -/
def callsFunction (program : Program) (i j : Nat) : Prop :=
  ∃ slot ∈ program.get_function i, ∃ inst,
    slot = some inst ∧ inst.instruction_type.function_index = some j

/-- Claim-side reachability of functions from the root F1 (index 0), closed
transitively along `callsFunction` edges.  This is the specification's
reading of "unreachable"; the code's `called_functions` marking is weaker. -/
inductive ReachableFromF1 (program : Program) : Nat → Prop where
  | root : ReachableFromF1 program 0
  | step (i j : Nat) : ReachableFromF1 program i → callsFunction program i j →
      ReachableFromF1 program j

/-- Invariant the interpreter maintains across iterations: the step budget,
the recorded peak depth, star accounting against the grid, and the visited
counter. -/
def ExecInv (max_steps : Nat) (s : ExecState) : Prop :=
  s.metrics.steps ≤ max_steps
  ∧ s.metrics.max_stack_depth ≤ 256
  ∧ s.metrics.stars_collected + s.state.stars_remaining = s.metrics.total_stars
  ∧ 1 ≤ s.metrics.tiles_visited
  ∧ s.state.stars_remaining = gridStars s.state.tiles

/-- What every returned `ExecutionResult` satisfies. -/
def MetricsOk (max_steps : Nat) (r : ExecutionResult) : Prop :=
  r.metrics.steps ≤ max_steps
  ∧ r.metrics.max_stack_depth ≤ 256
  ∧ r.metrics.stars_collected ≤ r.metrics.total_stars
  ∧ 1 ≤ r.metrics.tiles_visited
  ∧ (r.solved = true ↔ r.status = ExecutionStatus.Solved)

/-- A 1×1 red grid with no star, robot facing right; used as a minimal
puzzle in several concrete runs. -/
def oneTilePuzzle : PuzzleConfig :=
  { id := "one", title := "One"
  , grid := [[some { color := some TileColor.Red, has_star := false }]]
  , robot_start := { position := { x := 0, y := 0 }, direction := Direction.Right }
  , function_lengths := { f1 := 1, f2 := 0, f3 := 0, f4 := 0, f5 := 0 }
  , allowed_instructions := [InstructionType.Forward]
  , solution := none }

/-- F1 holds a single conditional that can never fire on `oneTilePuzzle`
(condition Green on a red tile), so the only frame is popped as a skip and
the stack drains without the F1 re-push. -/
def drainProg : Program :=
  { f1 := [some { instruction_type := .Forward, condition := some TileColor.Green }]
  , f2 := [], f3 := [], f4 := [], f5 := [] }

/-- The metrics `execute oneTilePuzzle drainProg 100` returns: zero charged
steps. -/
def drainMetrics : ExecutionMetrics :=
  { steps := 0, instructions := 1, max_stack_depth := 1, conditionals_executed := 0
  , functions_called := 0, tiles_visited := 1, stars_collected := 0, total_stars := 0
  , paints_executed := 0 }

/-- Program whose F2 and F3 call each other but are unreachable from F1
(F1 = `[Forward]` calls nothing). -/
def mutualCallProg : Program :=
  { f1 := [some { instruction_type := .Forward, condition := none }]
  , f2 := [some { instruction_type := .F3, condition := none }]
  , f3 := [some { instruction_type := .F2, condition := none }]
  , f4 := [], f5 := [] }

/-- F1 = `[Forward]`, F2 = `[Left]`: F2 is non-empty and called by nothing. -/
def uncalledProg : Program :=
  { f1 := [some { instruction_type := .Forward, condition := none }]
  , f2 := [some { instruction_type := .Left, condition := none }]
  , f3 := [], f4 := [], f5 := [] }

/-- The one-row puzzle `[[Red, Red-with-star]]` of the end-to-end scenarios,
robot at (0,0) facing right. -/
def forwardPuzzle : PuzzleConfig :=
  { id := "trivial", title := "Trivial"
  , grid := [[some { color := some TileColor.Red, has_star := false },
              some { color := some TileColor.Red, has_star := true }]]
  , robot_start := { position := { x := 0, y := 0 }, direction := Direction.Right }
  , function_lengths := { f1 := 5, f2 := 0, f3 := 0, f4 := 0, f5 := 0 }
  , allowed_instructions := [InstructionType.Forward]
  , solution := none }

/-- F1 = `[Right]`: the right-forever loop. -/
def rightLoopProg : Program :=
  { f1 := [some { instruction_type := .Right, condition := none }]
  , f2 := [], f3 := [], f4 := [], f5 := [] }

/-- The metrics `execute forwardPuzzle rightLoopProg 100` returns: the cycle
detector fires at the sampled check of step 16. -/
def rightLoopMetrics : ExecutionMetrics :=
  { steps := 16, instructions := 1, max_stack_depth := 1, conditionals_executed := 0
  , functions_called := 0, tiles_visited := 1, stars_collected := 0, total_stars := 1
  , paints_executed := 0 }

/-- F1 = `[Forward]` on the 1×1 grid: the robot falls on step 1. -/
def fellProg : Program :=
  { f1 := [some { instruction_type := .Forward, condition := none }]
  , f2 := [], f3 := [], f4 := [], f5 := [] }

/-- The result of `execute oneTilePuzzle fellProg 5`. -/
def fellResult : ExecutionResult :=
  { status := .Fell
  , metrics := { steps := 1, instructions := 1, max_stack_depth := 1
               , conditionals_executed := 0, functions_called := 0, tiles_visited := 1
               , stars_collected := 0, total_stars := 0, paints_executed := 0 }
  , solved := false }

/-- F1 = `[Noop]`; used to witness the charged-step F1 re-push. -/
def repushProg : Program :=
  { f1 := [some { instruction_type := .Noop, condition := none }]
  , f2 := [], f3 := [], f4 := [], f5 := [] }

/-- A state in the middle of a charged `Noop` step on the 1×1 grid whose
stack has just been popped empty. -/
def repushState : ExecState :=
  { state := { tiles := [[some { color := some TileColor.Red, has_star := false }]]
             , position := { x := 0, y := 0 }, direction := Direction.Right
             , stars_remaining := 0 }
  , metrics := { steps := 1, instructions := 1, max_stack_depth := 1
               , conditionals_executed := 0, functions_called := 0, tiles_visited := 1
               , stars_collected := 0, total_stars := 0, paints_executed := 0 }
  , visited := [(0, 0)]
  , stack := []
  , seen := [] }

/-- The state `dispatchInstruction repushProg ⟨Noop, none⟩ repushState`
continues with: the auto-loop has re-pushed F1. -/
def repushStateNext : ExecState :=
  { repushState with stack := [{ func_index := 0, inst_index := 0 }] }

/-- Empty-slot program for the C5 witness: F1 has zero slots. -/
def emptyF1Prog : Program :=
  { f1 := [], f2 := [some { instruction_type := .Left, condition := none }]
  , f3 := [], f4 := [], f5 := [] }

/-- Puzzle whose slot budgets are all zero; the solver witness runs on it. -/
def zeroBudgetPuzzle : PuzzleConfig :=
  { id := "zero", title := "Zero"
  , grid := [[some { color := some TileColor.Red, has_star := false }]]
  , robot_start := { position := { x := 0, y := 0 }, direction := Direction.Right }
  , function_lengths := { f1 := 0, f2 := 0, f3 := 0, f4 := 0, f5 := 0 }
  , allowed_instructions := [InstructionType.Forward]
  , solution := none }

/-- Default-like solver configuration for the C4 witness. -/
def witnessSolverConfig : SolverConfig :=
  { timeout := 15000, max_steps := 200, max_instructions := 16
  , min_constraints := MinConstraints.default }

/-- Program with one (empty) F5 slot, for the C10 witness. -/
def oneSlotF5Prog : Program :=
  { f1 := [], f2 := [], f3 := [], f4 := [], f5 := [none] }

theorem execLoopFuel_sound : ∀ (fuel : Nat) (program : Program) (max_steps : Nat)
    (s : ExecState) (r : Option ExecutionResult),
    execLoopFuel fuel program max_steps s = some r → execLoop program max_steps s = r := by
  intro fuel
  induction fuel with
  | zero =>
    intro program max_steps s r h
    simp [execLoopFuel] at h
  | succ fuel ih =>
    intro program max_steps s r h
    rw [execLoop]
    simp only [execLoopFuel] at h
    cases hstep : execStep program max_steps s with
    | halt r2 =>
      rw [hstep] at h
      simp at h
      simp [h]
    | fault =>
      rw [hstep] at h
      simp at h
      simp [h]
    | next s2 =>
      rw [hstep] at h
      exact ih program max_steps s2 r h

/-- `execStep` on an empty stack: the while condition fails and the loop
falls through to the `Timeout` result. -/
theorem execStep_nil (program : Program) (max_steps : Nat) (s : ExecState)
    (h : s.stack = []) :
    execStep program max_steps s
      = .halt { status := .Timeout, metrics := s.metrics, solved := false } := by
  unfold execStep
  rw [h]

/-- C9: `should_execute` semantics: an absent condition always executes (on
any tile colour, including no colour); condition `c` against tile colour `c'`
executes iff `c = c'`; condition `c` on a colourless tile never executes. -/
theorem should_execute_condition_semantics (t : InstructionType)
    (tc : Option TileColor) (c cp : TileColor) :
    (Instruction.mk t none).should_execute tc = true
    ∧ (Instruction.mk t (some c)).should_execute (some cp) = decide (c = cp)
    ∧ (Instruction.mk t (some c)).should_execute none = false := by
  refine ⟨rfl, ?_, rfl⟩
  cases c <;> cases cp <;> rfl

/-- C8: `is_below_minimums` is exactly the five-way disjunction of threshold
failures, where `step_ratio` is steps over instructions and 0 when the
instruction count is 0. -/
theorem is_below_minimums_spec (m : ExecutionMetrics) (c : MinConstraints) :
    (is_below_minimums m c = true ↔
      (m.instructions < c.instructions ∨ m.steps < c.steps
        ∨ m.max_stack_depth < c.recursion_depth
        ∨ m.conditionals_executed < c.conditionals
        ∨ m.step_ratio < c.step_ratio))
    ∧ m.step_ratio = (if m.instructions = 0 then 0
        else (m.steps : Rat) / (m.instructions : Rat)) := by
  constructor
  · simp [is_below_minimums, or_assoc]
  · rfl

/-- C10: for a function index ≥ 5, `Program::get` reads nothing (the
`get_function` default arm is the empty slice) while `Program::set` silently
writes slot `i` of `f5` (the `get_function_mut` default arm is `f5`), leaving
the other four bodies unchanged. -/
theorem program_get_set_disagree (p : Program) (fi i j : Nat)
    (inst : Option Instruction) (hfi : 5 ≤ fi) (hi : i < p.f5.length) :
    p.get fi j = none
    ∧ (p.set fi i inst).f5 = p.f5.set i inst
    ∧ (p.set fi i inst).f1 = p.f1 ∧ (p.set fi i inst).f2 = p.f2
    ∧ (p.set fi i inst).f3 = p.f3 ∧ (p.set fi i inst).f4 = p.f4 := by
  obtain ⟨k, rfl⟩ : ∃ k, fi = k + 5 := ⟨fi - 5, by omega⟩
  refine ⟨rfl, ?_, rfl, rfl, rfl, rfl⟩
  show Program.setSlot p.f5 i inst = p.f5.set i inst
  unfold Program.setSlot
  rw [if_pos hi]

/-- Closed instance of C10's theorem at `fi = 5` on a program whose `f5` has
one slot. -/
theorem program_get_set_disagree_witness :
    oneSlotF5Prog.get 5 3 = none
    ∧ (oneSlotF5Prog.set 5 0 (some { instruction_type := .Noop, condition := none })).f5
        = oneSlotF5Prog.f5.set 0 (some { instruction_type := .Noop, condition := none }) := by
  have h := program_get_set_disagree oneSlotF5Prog 5 0 3
    (some { instruction_type := .Noop, condition := none }) (by decide) (by decide)
  exact ⟨h.1, h.2.1⟩

/-- C5: with an F1 of zero slots, execution never starts: the initial stack
is empty, the loop exits immediately, and the result is `Timeout` with zero
steps, for any puzzle and step budget. -/
theorem empty_f1_returns_timeout (puzzle : PuzzleConfig) (program : Program)
    (max_steps : Nat) (h : program.f1 = []) :
    ∃ r, execute puzzle program max_steps = some r
      ∧ r.status = ExecutionStatus.Timeout ∧ r.metrics.steps = 0 := by
  refine ⟨{ status := .Timeout, metrics := (initState puzzle program).metrics
          , solved := false }, ?_, rfl, rfl⟩
  show execLoop program max_steps (initState puzzle program) = _
  rw [execLoop, execStep_nil program max_steps _ (by simp [initState, h])]

/-- Closed instance of C5's theorem. -/
theorem empty_f1_returns_timeout_witness :
    ∃ r, execute forwardPuzzle emptyF1Prog 10 = some r
      ∧ r.status = ExecutionStatus.Timeout ∧ r.metrics.steps = 0 :=
  empty_f1_returns_timeout forwardPuzzle emptyF1Prog 10 rfl

/-- C3: on `[[Red, Red*]]` with F1 = `[Right]` and `max_steps = 100`, the
status is in {Timeout, Cycle}, the run is unsolved, and specifically the
cycle detector fires at the sampled check of step 16. -/
theorem right_forever_cycle_detected :
    ∃ r, execute forwardPuzzle rightLoopProg 100 = some r
      ∧ (r.status = ExecutionStatus.Timeout ∨ r.status = ExecutionStatus.Cycle)
      ∧ r.solved = false ∧ r.status = ExecutionStatus.Cycle ∧ r.metrics.steps ≤ 16 := by
  refine ⟨{ status := .Cycle, metrics := rightLoopMetrics, solved := false },
    ?_, Or.inr rfl, rfl, rfl, by decide⟩
  exact execLoopFuel_sound 20 rightLoopProg 100 (initState forwardPuzzle rightLoopProg) _
    (by decide)

/-- C1 counterexample: `drainProg` has a non-empty F1, yet `execute` halts
with `Timeout` after 0 of the 100 allowed steps: the only frame is popped as
a skip (its condition never matches), the re-push at the bottom of the loop
body is bypassed by the skip path, and the stack drains. -/
theorem stack_drain_counterexample :
    drainProg.f1.length = 1
    ∧ execute oneTilePuzzle drainProg 100
        = some { status := ExecutionStatus.Timeout, metrics := drainMetrics, solved := false }
    ∧ drainMetrics.steps = 0 ∧ drainMetrics.steps < 100 := by
  refine ⟨rfl, ?_, rfl, by decide⟩
  exact execLoopFuel_sound 5 drainProg 100 (initState oneTilePuzzle drainProg) _ (by decide)

/-- The auto-loop never leaves an empty stack when F1 is non-empty: an empty
stack gets F1 re-pushed (slot 0 on top), a non-empty stack stays. -/
theorem autoLoop_stack_ne_nil (program : Program) (s : ExecState)
    (hf1 : program.f1.length ≠ 0) : (autoLoop program s).stack ≠ [] := by
  unfold autoLoop
  split
  · rw [if_pos (Nat.pos_of_ne_zero hf1)]
    intro hcon
    rcases List.append_eq_nil.mp hcon with ⟨h1, _⟩
    rw [List.map_eq_nil_iff, List.range_eq_nil] at h1
    exact hf1 h1
  · next hne =>
    simpa [List.isEmpty_iff] using hne

/-- C1 (amended): every fully executed (charged) instruction that continues
the loop ends in the F1 auto-loop, so with a non-empty F1 a charged step
never leaves the stack empty — the stack can only drain through skipped
frames. -/
theorem charged_step_stack_nonempty (program : Program) (instruction : Instruction)
    (s s2 : ExecState) (hf1 : program.f1.length ≠ 0)
    (h : dispatchInstruction program instruction s = StepResult.next s2) :
    s2.stack ≠ [] := by
  unfold dispatchInstruction callFunction paintTile at h
  repeat' (first | split at h | simp only [] at h)
  all_goals cases h
  all_goals exact autoLoop_stack_ne_nil program _ hf1

/-- Closed instance of C1's amended theorem: a charged `Noop` with the stack
drained re-pushes F1. -/
theorem charged_step_stack_nonempty_witness :
    repushProg.f1.length ≠ 0
    ∧ dispatchInstruction repushProg { instruction_type := .Noop, condition := none } repushState
        = StepResult.next repushStateNext
    ∧ repushStateNext.stack ≠ [] := by
  refine ⟨by decide, by decide, ?_⟩
  exact charged_step_stack_nonempty repushProg
    { instruction_type := .Noop, condition := none } repushState repushStateNext
    (by decide) (by decide)

/-- C2 (amended): a function with a non-empty slot that no function's body
calls (and which is not F1, which the code always marks) makes
`should_reject_program` return true, for every puzzle. -/
theorem uncalled_function_rejected (program : Program) (puzzle : PuzzleConfig)
    (i : Nat) (h5 : i < 5) (hne : functionHasInstructions program i = true)
    (hnc : called_functions program i = false) :
    should_reject_program program puzzle = true := by
  have hu : unreachableFunctionCheck program = true := by
    unfold unreachableFunctionCheck
    rw [List.any_eq_true]
    exact ⟨i, List.mem_range.mpr h5, by simp [hne, hnc]⟩
  simp [should_reject_program, hu]

/-- Closed instance of C2's amended theorem: F1 = `[Forward]`, F2 = `[Left]`,
F2 is never called, the program is rejected. -/
theorem uncalled_function_rejected_witness :
    functionHasInstructions uncalledProg 1 = true
    ∧ called_functions uncalledProg 1 = false
    ∧ should_reject_program uncalledProg oneTilePuzzle = true := by
  refine ⟨by decide, by decide, ?_⟩
  exact uncalled_function_rejected uncalledProg oneTilePuzzle 1 (by decide) (by decide)
    (by decide)

/-- In `mutualCallProg`, only F1 (index 0) is reachable from F1: its body is
`[Forward]` and calls nothing. -/
theorem mutualCallProg_reachable_eq_zero :
    ∀ j, ReachableFromF1 mutualCallProg j → j = 0 := by
  intro j h
  induction h with
  | root => rfl
  | step i j hi hc ih =>
    subst ih
    rcases hc with ⟨slot, hmem, inst, hslot, hidx⟩
    simp only [mutualCallProg, Program.get_function, List.mem_singleton] at hmem
    subst hmem
    injection hslot with hinst
    rw [← hinst] at hidx
    simp [InstructionType.function_index] at hidx

/-- C2 counterexample: F2 (index 1) of `mutualCallProg` is non-empty and not
reachable from F1 through the program's call graph, yet
`should_reject_program` accepts the program — F2 and F3 call each other, so
the code's called-from-anywhere marking marks both. -/
theorem unreachable_not_rejected_counterexample :
    functionHasInstructions mutualCallProg 1 = true
    ∧ ¬ ReachableFromF1 mutualCallProg 1
    ∧ should_reject_program mutualCallProg oneTilePuzzle = false := by
  refine ⟨by decide, ?_, by decide⟩
  intro h
  have h10 := mutualCallProg_reachable_eq_zero 1 h
  omega

/-- Every result the solver worklist loop returns has one of the three
outcome shapes, and carries a trivial solution exactly when `valid` is
false. -/
theorem findTrivialLoop_outcomes : ∀ (fuel : Nat) (puzzle : PuzzleConfig)
    (config : SolverConfig) (clock : Nat → Bool) (k programs_tested : Nat)
    (queue : List SearchFrame) (r : SolverResult),
    findTrivialLoop puzzle config clock fuel k programs_tested queue = some r →
    ((r.valid = true ∧ r.search_exhausted = false)
      ∨ (r.valid = true ∧ r.search_exhausted = true)
      ∨ (r.valid = false ∧ r.search_exhausted = false))
    ∧ (r.trivial_solution.isSome ↔ r.valid = false) := by
  intro fuel
  induction fuel with
  | zero =>
    intro puzzle config clock k pt queue r h
    simp [findTrivialLoop] at h
  | succ fuel ih =>
    intro puzzle config clock k pt queue r h
    rcases queue with _ | ⟨frame, rest⟩
    · simp only [findTrivialLoop] at h
      cases h
      simp
    · simp only [findTrivialLoop] at h
      split at h
      · cases h
        simp
      · split at h
        · -- complete program branch
          split at h
          · exact ih _ _ _ _ _ _ _ h
          · split at h
            · simp at h
            · split at h
              · cases h
                simp
              · exact ih _ _ _ _ _ _ _ h
        · -- expansion branch
          split at h
          · exact ih _ _ _ _ _ _ _ h
          · try simp only [] at h
            exact ih _ _ _ _ _ _ _ h

/-- C4: every returned `SolverResult` is one of the three outcome shapes —
timeout (valid, not exhausted), drained worklist (valid, exhausted), trivial
solution found (invalid, not exhausted) — and `trivial_solution` is present
iff `valid = false`, which only occurs with `search_exhausted = false`. -/
theorem find_trivial_solution_outcomes (puzzle : PuzzleConfig) (config : SolverConfig)
    (clock : Nat → Bool) (fuel : Nat) (r : SolverResult)
    (h : find_trivial_solution puzzle config clock fuel = some r) :
    ((r.valid = true ∧ r.search_exhausted = false)
      ∨ (r.valid = true ∧ r.search_exhausted = true)
      ∨ (r.valid = false ∧ r.search_exhausted = false))
    ∧ (r.trivial_solution.isSome ↔ r.valid = false)
    ∧ (r.valid = false → r.search_exhausted = false) := by
  have hmain := findTrivialLoop_outcomes fuel puzzle config clock 0 0 _ r h
  refine ⟨hmain.1, hmain.2, ?_⟩
  intro hv
  rcases hmain.1 with ⟨h1, _⟩ | ⟨h1, _⟩ | ⟨_, h2⟩
  · rw [hv] at h1
    simp at h1
  · rw [hv] at h1
    simp at h1
  · exact h2

/-- Closed instance of C4's theorem: the clock oracle fires on the first
check, producing the timeout shape. -/
theorem find_trivial_solution_outcomes_witness :
    ∃ r, find_trivial_solution zeroBudgetPuzzle witnessSolverConfig (fun _ => true) 1 = some r
      ∧ (r.trivial_solution.isSome ↔ r.valid = false)
      ∧ r.valid = true ∧ r.search_exhausted = false := by
  refine ⟨{ valid := true, search_exhausted := false, programs_tested := 0
          , time_elapsed_ms := 0, trivial_solution := none, trivial_metrics := none
          , reason := none }, by decide, ?_, rfl, rfl⟩
  exact (find_trivial_solution_outcomes zeroBudgetPuzzle witnessSolverConfig
    (fun _ => true) 1 _ (by decide)).2.1

/-- Updating one element of a list changes a `countP` by swapping the old
element's contribution for the new one's. -/
theorem countP_set_eq {α : Type} (p : α → Bool) : ∀ (l : List α) (i : Nat) (b a : α),
    l.get? i = some b →
    (l.set i a).countP p + (if p b then 1 else 0)
      = l.countP p + (if p a then 1 else 0) := by
  intro l
  induction l with
  | nil =>
    intro i b a h
    simp at h
  | cons x xs ih =>
    intro i b a h
    cases i with
    | zero =>
      simp only [List.get?] at h
      cases h
      simp [List.countP_cons]
      omega
    | succ n =>
      simp only [List.get?] at h
      have hx := ih n b a h
      simp only [List.set, List.countP_cons]
      omega

/-- Updating one element of a list changes a mapped sum by swapping the old
element's image for the new one's. -/
theorem mapSum_set_eq {α : Type} (f : α → Nat) : ∀ (l : List α) (i : Nat) (b a : α),
    l.get? i = some b →
    ((l.set i a).map f).sum + f b = (l.map f).sum + f a := by
  intro l
  induction l with
  | nil =>
    intro i b a h
    simp at h
  | cons x xs ih =>
    intro i b a h
    cases i with
    | zero =>
      simp only [List.get?] at h
      cases h
      simp
      omega
    | succ n =>
      simp only [List.get?] at h
      have hx := ih n b a h
      simp only [List.set, List.map_cons, List.sum_cons]
      omega

/-- A grid holding a starred tile has at least one star. -/
theorem gridStars_pos_of_star (gs : GridState) (x y : Int) (tile : Tile)
    (h : gs.get_tile x y = some tile) (hstar : tile.has_star = true) :
    1 ≤ gridStars gs.tiles := by
  unfold GridState.get_tile at h
  split at h
  · simp at h
  · split at h
    · simp at h
    · next row hrow =>
      split at h
      · simp at h
      · next slot hslot =>
        subst h
        have hmem : some tile ∈ row := List.get?_mem hslot
        have hrowpos : 1 ≤ rowStars row := by
          refine List.countP_pos.mpr ⟨some tile, hmem, ?_⟩
          simp [hstar]
        have hrowmem : rowStars row ∈ gs.tiles.map rowStars :=
          List.mem_map_of_mem _ (List.get?_mem hrow)
        exact le_trans hrowpos
          (List.single_le_sum (fun q _ => Nat.zero_le q) _ hrowmem)

/-- Replacing the tile under a successful lookup swaps its star contribution
in the grid's star count. -/
theorem gridStars_setTile (gs : GridState) (x y : Int) (told tnew : Tile)
    (h : gs.get_tile x y = some told) :
    gridStars (gs.setTile x y tnew).tiles + (if told.has_star then 1 else 0)
      = gridStars gs.tiles + (if tnew.has_star then 1 else 0) := by
  unfold GridState.get_tile at h
  unfold GridState.setTile
  split at h
  · simp at h
  · next hxy =>
    rw [if_neg hxy]
    split at h
    · simp at h
    · next row hrow =>
      split at h
      · simp at h
      · next slot hslot =>
        subst h
        have h2 := mapSum_set_eq rowStars gs.tiles y.toNat row
          (row.set x.toNat (some tnew)) hrow
        have h1 := countP_set_eq
          (fun t => match t with | some tile => tile.has_star | none => false)
          row x.toNat (some told) (some tnew) hslot
        simp only at h1
        unfold gridStars
        unfold rowStars at h2 ⊢
        dsimp only
        omega

/-- `setTile` never changes the remaining-star counter. -/
theorem setTile_stars_remaining (gs : GridState) (x y : Int) (t : Tile) :
    (gs.setTile x y t).stars_remaining = gs.stars_remaining := by
  unfold GridState.setTile
  split
  · rfl
  · split <;> rfl

/-- `autoLoop` only touches the stack: metrics unchanged. -/
theorem autoLoop_metrics_eq (program : Program) (s : ExecState) :
    (autoLoop program s).metrics = s.metrics := by
  unfold autoLoop
  split
  · split <;> rfl
  · rfl

/-- `autoLoop` only touches the stack: grid state unchanged. -/
theorem autoLoop_state_eq (program : Program) (s : ExecState) :
    (autoLoop program s).state = s.state := by
  unfold autoLoop
  split
  · split <;> rfl
  · rfl

/-- The interpreter invariant is insensitive to the F1 auto-loop. -/
theorem ExecInv_autoLoop (max_steps : Nat) (program : Program) (s : ExecState)
    (h : ExecInv max_steps s) : ExecInv max_steps (autoLoop program s) := by
  unfold ExecInv at h ⊢
  rw [autoLoop_metrics_eq, autoLoop_state_eq]
  exact h

/-- Function-call arms never fault or halt, and preserve the invariant. -/
theorem callFunction_preserves (program : Program) (target : Nat) (max_steps : Nat)
    (s : ExecState) (hinv : ExecInv max_steps s) :
    callFunction program target s ≠ StepResult.fault
    ∧ (∀ s2, callFunction program target s = StepResult.next s2 → ExecInv max_steps s2)
    ∧ (∀ r, callFunction program target s = StepResult.halt r → MetricsOk max_steps r) := by
  obtain ⟨h1, h2, h3, h4, h5⟩ := hinv
  refine ⟨?_, ?_, ?_⟩
  · simp only [callFunction]
    split <;> simp
  · intro s2 h
    simp only [callFunction] at h
    split at h <;> (cases h; exact ExecInv_autoLoop _ _ _ ⟨h1, h2, h3, h4, h5⟩)
  · intro r h
    simp only [callFunction] at h
    split at h <;> cases h

/-- Paint arms never fault or halt, and preserve the invariant: painting
keeps `has_star`, so the grid star count is unchanged. -/
theorem paintTile_preserves (program : Program) (color : TileColor) (max_steps : Nat)
    (s : ExecState) (hinv : ExecInv max_steps s) :
    paintTile program color s ≠ StepResult.fault
    ∧ (∀ s2, paintTile program color s = StepResult.next s2 → ExecInv max_steps s2)
    ∧ (∀ r, paintTile program color s = StepResult.halt r → MetricsOk max_steps r) := by
  obtain ⟨h1, h2, h3, h4, h5⟩ := hinv
  refine ⟨?_, ?_, ?_⟩
  · unfold paintTile
    split <;> simp
  · intro s2 h
    unfold paintTile at h
    split at h
    · next tile htile =>
      cases h
      apply ExecInv_autoLoop
      refine ⟨h1, h2, ?_, h4, ?_⟩
      · dsimp only
        rw [setTile_stars_remaining]
        exact h3
      · dsimp only
        rw [setTile_stars_remaining]
        have hd := gridStars_setTile s.state s.state.position.x s.state.position.y tile
          { tile with color := some color } htile
        dsimp only at hd
        omega
    · cases h
      exact ExecInv_autoLoop _ _ _ ⟨h1, h2, h3, h4, h5⟩
  · intro r h
    unfold paintTile at h
    split at h <;> cases h

/-- One dispatched instruction never faults under the invariant, and both its
continuing states and its halting results stay within bounds. -/
theorem dispatch_preserves (program : Program) (instruction : Instruction)
    (max_steps : Nat) (s : ExecState) (hinv : ExecInv max_steps s) :
    dispatchInstruction program instruction s ≠ StepResult.fault
    ∧ (∀ s2, dispatchInstruction program instruction s = StepResult.next s2 →
        ExecInv max_steps s2)
    ∧ (∀ r, dispatchInstruction program instruction s = StepResult.halt r →
        MetricsOk max_steps r) := by
  obtain ⟨h1, h2, h3, h4, h5⟩ := hinv
  rcases instruction with ⟨ty, cond⟩
  cases ty
  case Left =>
    refine ⟨by simp [dispatchInstruction], ?_, ?_⟩
    · intro s2 h
      simp only [dispatchInstruction] at h
      cases h
      exact ExecInv_autoLoop _ _ _ ⟨h1, h2, h3, h4, h5⟩
    · intro r h
      simp only [dispatchInstruction] at h
      cases h
  case Right =>
    refine ⟨by simp [dispatchInstruction], ?_, ?_⟩
    · intro s2 h
      simp only [dispatchInstruction] at h
      cases h
      exact ExecInv_autoLoop _ _ _ ⟨h1, h2, h3, h4, h5⟩
    · intro r h
      simp only [dispatchInstruction] at h
      cases h
  case Noop =>
    refine ⟨by simp [dispatchInstruction], ?_, ?_⟩
    · intro s2 h
      simp only [dispatchInstruction] at h
      cases h
      exact ExecInv_autoLoop _ _ _ ⟨h1, h2, h3, h4, h5⟩
    · intro r h
      simp only [dispatchInstruction] at h
      cases h
  case F1 => exact callFunction_preserves program 0 max_steps s ⟨h1, h2, h3, h4, h5⟩
  case F2 => exact callFunction_preserves program 1 max_steps s ⟨h1, h2, h3, h4, h5⟩
  case F3 => exact callFunction_preserves program 2 max_steps s ⟨h1, h2, h3, h4, h5⟩
  case F4 => exact callFunction_preserves program 3 max_steps s ⟨h1, h2, h3, h4, h5⟩
  case F5 => exact callFunction_preserves program 4 max_steps s ⟨h1, h2, h3, h4, h5⟩
  case PaintRed =>
    exact paintTile_preserves program TileColor.Red max_steps s ⟨h1, h2, h3, h4, h5⟩
  case PaintGreen =>
    exact paintTile_preserves program TileColor.Green max_steps s ⟨h1, h2, h3, h4, h5⟩
  case PaintBlue =>
    exact paintTile_preserves program TileColor.Blue max_steps s ⟨h1, h2, h3, h4, h5⟩
  case Forward =>
    refine ⟨?_, ?_, ?_⟩
    · intro hcon
      simp only [dispatchInstruction] at hcon
      split at hcon
      · cases hcon
      · next tile htile =>
        split at hcon
        · next hstar =>
          split at hcon
          · next hzero =>
            rw [setTile_stars_remaining] at hzero
            dsimp only at hzero
            have hpos := gridStars_pos_of_star s.state _ _ tile htile hstar
            omega
          · next r2 hsr =>
            split at hcon
            · cases hcon
            · cases hcon
        · cases hcon
    · intro s2 h
      simp only [dispatchInstruction] at h
      split at h
      · cases h
      · next tile htile =>
        split at h
        · next hstar =>
          split at h
          · cases h
          · next r2 hsr =>
            split at h
            · cases h
            · next hr0 =>
              cases h
              apply ExecInv_autoLoop
              rw [setTile_stars_remaining] at hsr
              dsimp only at hsr
              refine ⟨?_, ?_, ?_, ?_, ?_⟩
              · split <;> exact h1
              · split <;> exact h2
              · split <;> (dsimp only; omega)
              · split <;> (dsimp only; omega)
              · dsimp only
                have hd := gridStars_setTile
                  { s.state with position :=
                      { x := s.state.position.x + s.state.direction.delta.1
                      , y := s.state.position.y + s.state.direction.delta.2 } }
                  (s.state.position.x + s.state.direction.delta.1)
                  (s.state.position.y + s.state.direction.delta.2)
                  tile { tile with has_star := false } htile
                simp only [hstar] at hd
                dsimp only at hd
                simp at hd
                omega
        · cases h
          apply ExecInv_autoLoop
          refine ⟨?_, ?_, ?_, ?_, ?_⟩
          · split <;> exact h1
          · split <;> exact h2
          · split <;> (dsimp only; omega)
          · split <;> (dsimp only; omega)
          · dsimp only
            exact h5
    · intro r h
      simp only [dispatchInstruction] at h
      split at h
      · cases h
        exact ⟨h1, h2, by dsimp only; omega, h4, by simp⟩
      · next tile htile =>
        split at h
        · next hstar =>
          split at h
          · cases h
          · next r2 hsr =>
            split at h
            · next hr0 =>
              cases h
              rw [setTile_stars_remaining] at hsr
              dsimp only at hsr
              refine ⟨?_, ?_, ?_, ?_, ?_⟩
              · split <;> exact h1
              · split <;> exact h2
              · split <;> (dsimp only; omega)
              · split <;> (dsimp only; omega)
              · simp
            · cases h
        · cases h

/-- One loop iteration never faults under the invariant; continuing states
keep the invariant and halting results satisfy the metric bounds. -/
theorem execStep_preserves (program : Program) (max_steps : Nat) (s : ExecState)
    (hinv : ExecInv max_steps s) :
    execStep program max_steps s ≠ StepResult.fault
    ∧ (∀ s2, execStep program max_steps s = StepResult.next s2 → ExecInv max_steps s2)
    ∧ (∀ r, execStep program max_steps s = StepResult.halt r → MetricsOk max_steps r) := by
  obtain ⟨h1, h2, h3, h4, h5⟩ := hinv
  refine ⟨?_, ?_, ?_⟩
  · intro hcon
    simp only [execStep] at hcon
    repeat' split at hcon
    all_goals try (cases hcon)
    all_goals
      exact (dispatch_preserves program _ max_steps _
        (by refine ⟨?_, ?_, ?_, ?_, ?_⟩ <;>
          first
            | exact h5
            | (dsimp only; omega)
            | (dsimp only; rw [Nat.max_le]; omega))).1 hcon
  · intro s2 h
    simp only [execStep] at h
    repeat' split at h
    all_goals try (cases h)
    all_goals try
      (exact (dispatch_preserves program _ max_steps _
        (by refine ⟨?_, ?_, ?_, ?_, ?_⟩ <;>
          first
            | exact h5
            | (dsimp only; omega)
            | (dsimp only; rw [Nat.max_le]; omega))).2.1 s2 h)
    all_goals
      refine ⟨?_, ?_, ?_, ?_, ?_⟩ <;>
        first
          | exact h5
          | (dsimp only; omega)
          | (dsimp only; rw [Nat.max_le]; omega)
  · intro r h
    simp only [execStep] at h
    repeat' split at h
    all_goals try (cases h)
    all_goals try
      (exact (dispatch_preserves program _ max_steps _
        (by refine ⟨?_, ?_, ?_, ?_, ?_⟩ <;>
          first
            | exact h5
            | (dsimp only; omega)
            | (dsimp only; rw [Nat.max_le]; omega))).2.2 r h)
    all_goals
      refine ⟨?_, ?_, ?_, ?_, ?_⟩ <;>
        first
          | exact h1
          | exact h2
          | exact h4
          | (dsimp only; omega)
          | (dsimp only; rw [Nat.max_le]; omega)
          | simp

/-- Under the invariant, the interpreter loop always produces a result and
that result satisfies the metric bounds. -/
theorem execLoop_ok (program : Program) (max_steps : Nat) :
    ∀ s : ExecState, ExecInv max_steps s →
      ∃ r, execLoop program max_steps s = some r ∧ MetricsOk max_steps r := by
  intro s
  induction s using execLoop.induct program max_steps with
  | case1 s r heq =>
    intro hinv
    refine ⟨r, ?_, (execStep_preserves program max_steps s hinv).2.2 r heq⟩
    rw [execLoop, heq]
  | case2 s heq =>
    intro hinv
    exact absurd heq (execStep_preserves program max_steps s hinv).1
  | case3 s s2 heq ih =>
    intro hinv
    obtain ⟨r, hr, hok⟩ := ih ((execStep_preserves program max_steps s hinv).2.1 s2 heq)
    refine ⟨r, ?_, hok⟩
    rw [execLoop, heq]
    exact hr

/-- The state `execute` starts from satisfies the interpreter invariant. -/
theorem initState_inv (puzzle : PuzzleConfig) (program : Program) (max_steps : Nat) :
    ExecInv max_steps (initState puzzle program) :=
  ⟨Nat.zero_le _, Nat.zero_le _, Nat.zero_add _, le_refl 1, rfl⟩

/-- C6: every result of `execute` keeps `steps` within the budget, the peak
stack depth within the 256 cap, collected stars within the total, and visits
at least the start tile. -/
theorem execute_metric_bounds (puzzle : PuzzleConfig) (program : Program)
    (max_steps : Nat) (r : ExecutionResult)
    (h : execute puzzle program max_steps = some r) :
    r.metrics.steps ≤ max_steps ∧ r.metrics.max_stack_depth ≤ 256
    ∧ r.metrics.stars_collected ≤ r.metrics.total_stars
    ∧ 1 ≤ r.metrics.tiles_visited := by
  obtain ⟨r2, hr2, hok⟩ := execLoop_ok program max_steps (initState puzzle program)
    (initState_inv puzzle program max_steps)
  have heq : some r2 = some r := hr2.symm.trans h
  cases heq
  exact ⟨hok.1, hok.2.1, hok.2.2.1, hok.2.2.2.1⟩

/-- Closed instance of C6's theorem on a run that falls off the grid. -/
theorem execute_metric_bounds_witness :
    execute oneTilePuzzle fellProg 5 = some fellResult
    ∧ fellResult.metrics.steps ≤ 5 ∧ fellResult.metrics.max_stack_depth ≤ 256
    ∧ fellResult.metrics.stars_collected ≤ fellResult.metrics.total_stars
    ∧ 1 ≤ fellResult.metrics.tiles_visited := by
  have hex : execute oneTilePuzzle fellProg 5 = some fellResult :=
    execLoopFuel_sound 10 fellProg 5 (initState oneTilePuzzle fellProg) _ (by decide)
  have hb := execute_metric_bounds oneTilePuzzle fellProg 5 fellResult hex
  exact ⟨hex, hb.1, hb.2.1, hb.2.2.1, hb.2.2.2⟩

/-- C7: `execute` is total on every well-typed input: it always returns a
well-formed result (the modelled panics — the guarded stack pop, the
function-index unwrap resolved per call arm, and the `stars_remaining`
decrement — are unreachable), and `solved` agrees with the status. -/
theorem execute_total (puzzle : PuzzleConfig) (program : Program) (max_steps : Nat) :
    (∃ r, execute puzzle program max_steps = some r
      ∧ (r.solved = true ↔ r.status = ExecutionStatus.Solved))
    ∧ (∀ t : InstructionType, t.is_function_call = true ↔ (t.function_index).isSome = true) := by
  constructor
  · obtain ⟨r, hr, hok⟩ := execLoop_ok program max_steps (initState puzzle program)
      (initState_inv puzzle program max_steps)
    exact ⟨r, hr, hok.2.2.2.2⟩
  · intro t
    cases t <;> decide
